import Mathlib

/-!
Verification development for the supply-chain Q1-2026 goal-tracking tool.

Shallow embedding of the data layer (`src/data_manager.py`), the subtask
operations of `src/app.py`, and the derived-status computation of
`src/components/visualizations.py`.  Python dictionaries are modelled as
insertion-ordered association lists with unique keys, Python values as the
inductive type `Value`, and the clock as an explicit argument.
-/

namespace GoalTracker

/-- Model of Python `datetime.date`: a calendar date (always validated on
construction in Python; validity is tracked by `validDate`). -/
structure PyDate where
  year : Nat
  month : Nat
  day : Nat
deriving DecidableEq, Repr

/-- Model of a Python time-of-day (the time component of `datetime.datetime`). -/
structure PyTime where
  hour : Nat
  minute : Nat
  second : Nat
  microsecond : Nat
deriving DecidableEq, Repr

def isLeapYear (y : Nat) : Bool :=
  (y % 4 == 0 && y % 100 != 0) || (y % 400 == 0)

def daysInMonth (y m : Nat) : Nat :=
  if m = 2 then (if isLeapYear y then 29 else 28)
  else if m = 4 ∨ m = 6 ∨ m = 9 ∨ m = 11 then 30
  else 31

/-- The invariant every Python `datetime.date` object satisfies. -/
def validDate (d : PyDate) : Bool :=
  1 ≤ d.year && d.year ≤ 9999 && 1 ≤ d.month && d.month ≤ 12 &&
    1 ≤ d.day && d.day ≤ daysInMonth d.year d.month

/-- The invariant every Python time-of-day satisfies. -/
def validTime (t : PyTime) : Bool :=
  t.hour ≤ 23 && t.minute ≤ 59 && t.second ≤ 59 && t.microsecond ≤ 999999

/-- Python `date` comparison `<` (lexicographic on year, month, day). -/
def dateLT (a b : PyDate) : Bool :=
  a.year < b.year ∨ (a.year = b.year ∧
    (a.month < b.month ∨ (a.month = b.month ∧ a.day < b.day)))

/-- The decimal digit character for `n % 10`. -/
def digitChar (n : Nat) : Char := Char.ofNat (48 + n % 10)

/-- Zero-padded fixed-width decimal rendering, as produced by `strftime`
field specifiers and `isoformat` (`padDigits 4 2026 = "2026"`,
`padDigits 2 3 = "03"`). -/
def padDigits : Nat → Nat → List Char
  | 0, _ => []
  | k + 1, n => padDigits k (n / 10) ++ [digitChar n]

def isDigitChar (c : Char) : Bool := 48 ≤ c.toNat && c.toNat ≤ 57

/-- Value of a string of decimal digits (most significant first). -/
def digitsToNat (l : List Char) : Nat :=
  l.foldl (fun a c => 10 * a + (c.toNat - 48)) 0

/-- Model of Python values as they occur in this program's data: JSON
scalars, strings, `date` / `datetime` objects, lists and (insertion-ordered)
string-keyed dictionaries.  -/
inductive Value where
  | vNull : Value
  | vBool : Bool → Value
  | vInt : Int → Value
  | vStr : String → Value
  | vDate : PyDate → Value
  | vDateTime : PyDate → PyTime → Value
  | vList : List Value → Value
  | vDict : List (String × Value) → Value
deriving Repr

mutual
def decEqV : (a b : Value) → Decidable (a = b)
  | .vNull, .vNull => isTrue rfl
  | .vNull, .vBool a2 => isFalse (by intro h; exact Value.noConfusion h)
  | .vNull, .vInt a2 => isFalse (by intro h; exact Value.noConfusion h)
  | .vNull, .vStr a2 => isFalse (by intro h; exact Value.noConfusion h)
  | .vNull, .vDate a2 => isFalse (by intro h; exact Value.noConfusion h)
  | .vNull, .vDateTime a2 b2 => isFalse (by intro h; exact Value.noConfusion h)
  | .vNull, .vList a2 => isFalse (by intro h; exact Value.noConfusion h)
  | .vNull, .vDict a2 => isFalse (by intro h; exact Value.noConfusion h)
  | .vBool a1, .vNull => isFalse (by intro h; exact Value.noConfusion h)
  | .vBool a1, .vBool a2 =>
    if h : a1 = a2 then isTrue (by rw [h])
    else isFalse (by intro c; injection c; contradiction)
  | .vBool a1, .vInt a2 => isFalse (by intro h; exact Value.noConfusion h)
  | .vBool a1, .vStr a2 => isFalse (by intro h; exact Value.noConfusion h)
  | .vBool a1, .vDate a2 => isFalse (by intro h; exact Value.noConfusion h)
  | .vBool a1, .vDateTime a2 b2 => isFalse (by intro h; exact Value.noConfusion h)
  | .vBool a1, .vList a2 => isFalse (by intro h; exact Value.noConfusion h)
  | .vBool a1, .vDict a2 => isFalse (by intro h; exact Value.noConfusion h)
  | .vInt a1, .vNull => isFalse (by intro h; exact Value.noConfusion h)
  | .vInt a1, .vBool a2 => isFalse (by intro h; exact Value.noConfusion h)
  | .vInt a1, .vInt a2 =>
    if h : a1 = a2 then isTrue (by rw [h])
    else isFalse (by intro c; injection c; contradiction)
  | .vInt a1, .vStr a2 => isFalse (by intro h; exact Value.noConfusion h)
  | .vInt a1, .vDate a2 => isFalse (by intro h; exact Value.noConfusion h)
  | .vInt a1, .vDateTime a2 b2 => isFalse (by intro h; exact Value.noConfusion h)
  | .vInt a1, .vList a2 => isFalse (by intro h; exact Value.noConfusion h)
  | .vInt a1, .vDict a2 => isFalse (by intro h; exact Value.noConfusion h)
  | .vStr a1, .vNull => isFalse (by intro h; exact Value.noConfusion h)
  | .vStr a1, .vBool a2 => isFalse (by intro h; exact Value.noConfusion h)
  | .vStr a1, .vInt a2 => isFalse (by intro h; exact Value.noConfusion h)
  | .vStr a1, .vStr a2 =>
    if h : a1 = a2 then isTrue (by rw [h])
    else isFalse (by intro c; injection c; contradiction)
  | .vStr a1, .vDate a2 => isFalse (by intro h; exact Value.noConfusion h)
  | .vStr a1, .vDateTime a2 b2 => isFalse (by intro h; exact Value.noConfusion h)
  | .vStr a1, .vList a2 => isFalse (by intro h; exact Value.noConfusion h)
  | .vStr a1, .vDict a2 => isFalse (by intro h; exact Value.noConfusion h)
  | .vDate a1, .vNull => isFalse (by intro h; exact Value.noConfusion h)
  | .vDate a1, .vBool a2 => isFalse (by intro h; exact Value.noConfusion h)
  | .vDate a1, .vInt a2 => isFalse (by intro h; exact Value.noConfusion h)
  | .vDate a1, .vStr a2 => isFalse (by intro h; exact Value.noConfusion h)
  | .vDate a1, .vDate a2 =>
    if h : a1 = a2 then isTrue (by rw [h])
    else isFalse (by intro c; injection c; contradiction)
  | .vDate a1, .vDateTime a2 b2 => isFalse (by intro h; exact Value.noConfusion h)
  | .vDate a1, .vList a2 => isFalse (by intro h; exact Value.noConfusion h)
  | .vDate a1, .vDict a2 => isFalse (by intro h; exact Value.noConfusion h)
  | .vDateTime a1 b1, .vNull => isFalse (by intro h; exact Value.noConfusion h)
  | .vDateTime a1 b1, .vBool a2 => isFalse (by intro h; exact Value.noConfusion h)
  | .vDateTime a1 b1, .vInt a2 => isFalse (by intro h; exact Value.noConfusion h)
  | .vDateTime a1 b1, .vStr a2 => isFalse (by intro h; exact Value.noConfusion h)
  | .vDateTime a1 b1, .vDate a2 => isFalse (by intro h; exact Value.noConfusion h)
  | .vDateTime a1 b1, .vDateTime a2 b2 =>
    if h1 : a1 = a2 then
      if h2 : b1 = b2 then isTrue (by rw [h1, h2])
      else isFalse (by intro c; injection c; contradiction)
    else isFalse (by intro c; injection c; contradiction)
  | .vDateTime a1 b1, .vList a2 => isFalse (by intro h; exact Value.noConfusion h)
  | .vDateTime a1 b1, .vDict a2 => isFalse (by intro h; exact Value.noConfusion h)
  | .vList a1, .vNull => isFalse (by intro h; exact Value.noConfusion h)
  | .vList a1, .vBool a2 => isFalse (by intro h; exact Value.noConfusion h)
  | .vList a1, .vInt a2 => isFalse (by intro h; exact Value.noConfusion h)
  | .vList a1, .vStr a2 => isFalse (by intro h; exact Value.noConfusion h)
  | .vList a1, .vDate a2 => isFalse (by intro h; exact Value.noConfusion h)
  | .vList a1, .vDateTime a2 b2 => isFalse (by intro h; exact Value.noConfusion h)
  | .vList a1, .vList a2 =>
    match decEqL a1 a2 with
    | isTrue h => isTrue (by rw [h])
    | isFalse h => isFalse (by intro c; injection c; contradiction)
  | .vList a1, .vDict a2 => isFalse (by intro h; exact Value.noConfusion h)
  | .vDict a1, .vNull => isFalse (by intro h; exact Value.noConfusion h)
  | .vDict a1, .vBool a2 => isFalse (by intro h; exact Value.noConfusion h)
  | .vDict a1, .vInt a2 => isFalse (by intro h; exact Value.noConfusion h)
  | .vDict a1, .vStr a2 => isFalse (by intro h; exact Value.noConfusion h)
  | .vDict a1, .vDate a2 => isFalse (by intro h; exact Value.noConfusion h)
  | .vDict a1, .vDateTime a2 b2 => isFalse (by intro h; exact Value.noConfusion h)
  | .vDict a1, .vList a2 => isFalse (by intro h; exact Value.noConfusion h)
  | .vDict a1, .vDict a2 =>
    match decEqD a1 a2 with
    | isTrue h => isTrue (by rw [h])
    | isFalse h => isFalse (by intro c; injection c; contradiction)
def decEqL : (a b : List Value) → Decidable (a = b)
  | [], [] => isTrue rfl
  | [], _ :: _ => isFalse (by intro h; exact List.noConfusion h)
  | _ :: _, [] => isFalse (by intro h; exact List.noConfusion h)
  | x :: xs, y :: ys =>
    match decEqV x y, decEqL xs ys with
    | isTrue h1, isTrue h2 => isTrue (by rw [h1, h2])
    | isFalse h1, _ => isFalse (by intro c; injection c; contradiction)
    | _, isFalse h2 => isFalse (by intro c; injection c; contradiction)
def decEqD : (a b : List (String × Value)) → Decidable (a = b)
  | [], [] => isTrue rfl
  | [], _ :: _ => isFalse (by intro h; exact List.noConfusion h)
  | _ :: _, [] => isFalse (by intro h; exact List.noConfusion h)
  | (k1, v1) :: xs, (k2, v2) :: ys =>
    if hk : k1 = k2 then
      match decEqV v1 v2, decEqD xs ys with
      | isTrue h1, isTrue h2 => isTrue (by rw [hk, h1, h2])
      | isFalse h1, _ => isFalse (by intro c; injection c with c1 c2; exact h1 (congrArg Prod.snd c1))
      | _, isFalse h2 => isFalse (by intro c; injection c with c1 c2; contradiction)
    else isFalse (by intro c; injection c with c1 c2; exact hk (congrArg Prod.fst c1))
end

instance : DecidableEq Value := decEqV

/-- Python dictionaries with string keys, as insertion-ordered association
lists (keys unique in every dict the program builds). -/
abbrev PyDict := List (String × Value)

/-- `date.isoformat()`: `"YYYY-MM-DD"` with zero-padded fields. -/
def dateIso (d : PyDate) : String :=
  ⟨padDigits 4 d.year ++
    ('-' :: (padDigits 2 d.month ++ ('-' :: padDigits 2 d.day)))⟩

/-- `datetime.isoformat()` for a naive datetime: `"YYYY-MM-DDTHH:MM:SS"`,
with `".ffffff"` appended exactly when the microsecond field is nonzero. -/
def datetimeIso (d : PyDate) (t : PyTime) : String :=
  ⟨(dateIso d).data ++
    ('T' :: (padDigits 2 t.hour ++
      (':' :: (padDigits 2 t.minute ++
        (':' :: (padDigits 2 t.second ++
          (if t.microsecond = 0 then []
           else '.' :: padDigits 6 t.microsecond)))))))⟩

def expectChar (c : Char) : List Char → Option (List Char)
  | x :: xs => if x = c then some xs else none
  | [] => none

/-- Read exactly `k` decimal digits from the front of `l`. -/
def parseFixedNat (k : Nat) (l : List Char) : Option (Nat × List Char) :=
  if (l.take k).length = k ∧ (l.take k).all isDigitChar then
    some (digitsToNat (l.take k), l.drop k)
  else none

/-- Modelled from the standard library: `datetime.fromisoformat`, restricted to
the dashed calendar forms this program produces and consumes
(`date.isoformat()` / naive `datetime.isoformat()` output:
`YYYY-MM-DD[{T, }HH:MM:SS[.ffffff]]`). `none` models a raised `ValueError`;
field ranges are validated as CPython does. -/
def fromisoformat (s : String) : Option (PyDate × PyTime) := do
  let (y, l) ← parseFixedNat 4 s.data
  let l ← expectChar '-' l
  let (mo, l) ← parseFixedNat 2 l
  let l ← expectChar '-' l
  let (da, l) ← parseFixedNat 2 l
  let d : PyDate := ⟨y, mo, da⟩
  if validDate d then
    match l with
    | [] => some (d, ⟨0, 0, 0, 0⟩)
    | c :: l =>
      if c = 'T' ∨ c = ' ' then do
        let (h, l) ← parseFixedNat 2 l
        let l ← expectChar ':' l
        let (mi, l) ← parseFixedNat 2 l
        let l ← expectChar ':' l
        let (se, l) ← parseFixedNat 2 l
        let (us, l) ←
          match l with
          | [] => some (0, ([] : List Char))
          | c2 :: l2 => if c2 = '.' then parseFixedNat 6 l2 else none
        let t : PyTime := ⟨h, mi, se, us⟩
        if l = [] ∧ validTime t then some (d, t) else none
      else none
  else none

/-- `datetime.fromisoformat(v).date()` as `_deserialize_dates` applies it:
parse, then keep only the calendar date. -/
def fromisoformatDate (s : String) : Option PyDate :=
  (fromisoformat s).map Prod.fst

/-- `d.get(k)`: `none` models Python's `None` for a missing key. -/
def dictGet : PyDict → String → Option Value
  | [], _ => none
  | (k, v) :: t, key => if k = key then some v else dictGet t key

/-- `d.get(k, default)`. -/
def dictGetD (d : PyDict) (key : String) (dflt : Value) : Value :=
  (dictGet d key).getD dflt

/-- `d[k] = v`: overwrite in place when the key exists (its position is kept),
append otherwise — Python dict insertion-order semantics. -/
def dictSet : PyDict → String → Value → PyDict
  | [], key, v => [(key, v)]
  | (k, w) :: t, key, v =>
    if k = key then (k, v) :: t else (k, w) :: dictSet t key v

/-- `d.update(u)`: assign every binding of `u`, in order. -/
def dictUpdate (d : PyDict) (u : PyDict) : PyDict :=
  u.foldl (fun acc kv => dictSet acc kv.1 kv.2) d

/-- Python truthiness for the values of this data model. -/
def pyTruthy : Value → Bool
  | .vNull => false
  | .vBool b => b
  | .vInt n => n != 0
  | .vStr s => s != ""
  | .vDate _ => true
  | .vDateTime _ _ => true
  | .vList l => !l.isEmpty
  | .vDict d => !d.isEmpty

/-- The date field names recognized by `load_projects`. -/
def dateFields : List String :=
  ["start_date", "due_date", "timestamp", "created_at", "updated_at"]

mutual
/-- `DataManager._serialize_dates`: replace every `date`/`datetime` object by
its ISO string, recursing through dicts and lists; all else unchanged. -/
def serialize_dates : Value → Value
  | .vDate d => .vStr (dateIso d)
  | .vDateTime d t => .vStr (datetimeIso d t)
  | .vDict l => .vDict (serializeDatesD l)
  | .vList l => .vList (serializeDatesL l)
  | v => v
def serializeDatesL : List Value → List Value
  | [] => []
  | v :: t => serialize_dates v :: serializeDatesL t
def serializeDatesD : PyDict → PyDict
  | [] => []
  | (k, v) :: t => (k, serialize_dates v) :: serializeDatesD t
end

mutual
/-- `DataManager._deserialize_dates`: in every dict, parse string values under
the given date field names back to dates via `fromisoformat(...).date()`,
keeping the string when parsing raises; recurse into everything else. -/
def deserialize_dates : Value → List String → Value
  | .vDict l, fields => .vDict (deserializeDatesD l fields)
  | .vList l, fields => .vList (deserializeDatesL l fields)
  | v, _ => v
def deserializeDatesL : List Value → List String → List Value
  | [], _ => []
  | v :: t, fields => deserialize_dates v fields :: deserializeDatesL t fields
def deserializeDatesD : PyDict → List String → PyDict
  | [], _ => []
  | (k, v) :: t, fields =>
    (if fields.contains k then
       match v with
       | .vStr s =>
         (k, match fromisoformatDate s with
             | some d => .vDate d
             | none => .vStr s)
       | _ => (k, deserialize_dates v fields)
     else (k, deserialize_dates v fields)) :: deserializeDatesD t fields
end

/-- State of the backing `data/projects.json` file as `load_projects` can see
it: missing, unreadable (open failure or invalid JSON — both land in the same
`except` branch), or readable with JSON content parsing to `v`
(`json.dump`/`json.load` round-trip the date-free values exactly). -/
inductive FileState where
  | missing : FileState
  | unreadable : FileState
  | stored : Value → FileState
deriving DecidableEq, Repr

/-- `DataManager.save_projects`: serialize dates and write the JSON file. -/
def save_projects (projects : List PyDict) : FileState :=
  .stored (serialize_dates (.vList (projects.map .vDict)))

/-- `DataManager.load_projects`: `[]` when the file is missing; `[]` from the
`except` branch when it is unreadable; otherwise the parsed JSON with date
fields deserialized. -/
def load_projects : FileState → Value
  | .missing => .vList []
  | .unreadable => .vList []
  | .stored v => deserialize_dates v dateFields

/-- `project.get('id') == project_id`: Python `==` between a dict lookup
(possibly `None`) and a string. -/
def idMatches (p : PyDict) (pid : String) : Bool :=
  match dictGet p "id" with
  | some (.vStr s) => s == pid
  | _ => false

/-- `DataManager.update_project`: merge `updates` into the first project whose
id matches and stamp its `updated_at` with `now`
(= `datetime.now().isoformat()`); the loop breaks at the first match. -/
def update_project : List PyDict → String → PyDict → String → List PyDict
  | [], _, _, _ => []
  | p :: t, pid, updates, now =>
    if idMatches p pid then
      dictSet (dictUpdate p updates) "updated_at" (.vStr now) :: t
    else p :: update_project t pid updates now

/-- `DataManager.add_project`: stamp `created_at` and `updated_at` with the
current time's ISO string and append the project. -/
def add_project (projects : List PyDict) (new_project : PyDict)
    (d : PyDate) (t : PyTime) : List PyDict :=
  projects ++
    [dictSet (dictSet new_project "created_at" (.vStr (datetimeIso d t)))
      "updated_at" (.vStr (datetimeIso d t))]

/-- `DataManager.delete_project`: the comprehension
`[p for p in projects if p.get('id') != project_id]`. -/
def delete_project : List PyDict → String → List PyDict
  | [], _ => []
  | p :: t, pid =>
    if idMatches p pid then delete_project t pid else p :: delete_project t pid

/-- `datetime.now().strftime('%Y%m%d%H%M%S%f')`: concatenated zero-padded
fixed-width decimal fields (4+2+2+2+2+2+6 digits). -/
def strftimeStamp (d : PyDate) (t : PyTime) : String :=
  ⟨padDigits 4 d.year ++ (padDigits 2 d.month ++ (padDigits 2 d.day ++
    (padDigits 2 t.hour ++ (padDigits 2 t.minute ++ (padDigits 2 t.second ++
      padDigits 6 t.microsecond)))))⟩

/-- `generate_project_id`, with the clock reading as explicit argument. -/
def generate_project_id (d : PyDate) (t : PyTime) : String :=
  "proj_" ++ strftimeStamp d t

/-- `generate_subtask_id`, with the clock reading as explicit argument. -/
def generate_subtask_id (d : PyDate) (t : PyTime) : String :=
  "task_" ++ strftimeStamp d t

/-- `get_status_with_overdue` (visualizations.py), with `date.today()` as the
explicit `today`. `none` models a raised exception: `fromisoformat` ValueError
on an unparseable string, or TypeError from `<` between a non-date value (or a
`datetime`) and a `date`. -/
def get_status_with_overdue (p : PyDict) (today : PyDate) : Option Value :=
  let status := dictGetD p "status" (.vStr "Not Started")
  if status = .vStr "Completed" then some status
  else
    let dd := dictGetD p "due_date" .vNull
    if pyTruthy dd then
      match dd with
      | .vStr s =>
        match fromisoformatDate s with
        | some d => if dateLT d today then some (.vStr "Overdue") else some status
        | none => none
      | .vDate d => if dateLT d today then some (.vStr "Overdue") else some status
      | _ => none
    else some status

/-- `⌊log₂ n⌋` by fuelled halving (`log2fuel n n` is exact for `n ≥ 1`). -/
def log2fuel : Nat → Nat → Nat
  | 0, _ => 0
  | f + 1, n => if 2 ≤ n then log2fuel f (n / 2) + 1 else 0

/-- Smallest `k` with `b ≤ a * 2 ^ k`, by fuelled doubling. -/
def clogfuel : Nat → Nat → Nat → Nat
  | 0, _, _ => 0
  | f + 1, a, b => if b ≤ a then 0 else clogfuel f (2 * a) b + 1

/-- `⌊log₂ (a / b)⌋` for positive naturals `a`, `b`. -/
def floorLog2Pair (a b : Nat) : ℤ :=
  if b ≤ a then (log2fuel a (a / b) : ℤ) else -(clogfuel b a b : ℤ)

/-- Round `N / D` to the nearest natural, ties to even. -/
def roundNatDiv (N D : Nat) : Nat :=
  let f := N / D
  let r := N % D
  if 2 * r < D then f
  else if 2 * r > D then f + 1
  else if f % 2 = 0 then f else f + 1

/-- Correctly-rounded IEEE-754 binary64 value of `a / b` (`a`, `b` positive),
as mantissa `m` and exponent `E` with value `m * 2 ^ E` (round to nearest,
ties to even; overflow and subnormals never arise at the magnitudes this
program computes). -/
def flPair (a b : Nat) : Nat × ℤ :=
  let e := floorLog2Pair a b
  let s := 52 - e
  let m :=
    if 0 ≤ s then roundNatDiv (a * 2 ^ s.toNat) b
    else roundNatDiv a (b * 2 ^ (-s).toNat)
  (m, e - 52)

/-- `int((completed_count / len(subtasks)) * 100)` exactly as CPython computes
it: correctly-rounded double division `completed / total`, correctly-rounded
double product with `100`, truncated by `int()` (the value is nonnegative, so
truncation is `⌊·⌋`).  Checked against CPython on all `total ≤ 300`; it is the
floor of the exact percentage except at float-rounding edge cases such as
`29/100 ↦ 28` and `29/50 ↦ 57`.  (`total = 0` never reaches this expression:
both call sites guard on a non-empty subtask list.) -/
def completionPct (completed total : Nat) : ℤ :=
  if completed = 0 ∨ total = 0 then 0
  else
    let p1 := flPair completed total
    let a2 := p1.1 * 100
    let p2 :=
      if 0 ≤ p1.2 then flPair (a2 * 2 ^ p1.2.toNat) 1
      else flPair a2 (2 ^ (-p1.2).toNat)
    if 0 ≤ p2.2 then (p2.1 * 2 ^ p2.2.toNat : ℤ)
    else ((p2.1 / 2 ^ (-p2.2).toNat : Nat) : ℤ)

/-- `sum(1 for s in subtasks if s.get('completed'))`. Subtask entries are
dicts in every state the program builds; a non-dict entry (where CPython would
raise `AttributeError` on `.get`) is not counted. -/
def countCompleted (subs : List Value) : Nat :=
  (subs.filter (fun s =>
    match s with
    | .vDict d => pyTruthy (dictGetD d "completed" .vNull)
    | _ => false)).length

/-- `recalculate_completion` (app.py): in the first project whose id matches,
recompute `completion_percentage` from the subtasks when they are a non-empty
list; the loop breaks at the first match. The trailing `save_projects()` call
persists the session list and does not alter it. -/
def recalculate_completion : List PyDict → String → List PyDict
  | [], _ => []
  | p :: t, pid =>
    if idMatches p pid then
      (match dictGetD p "subtasks" (.vList []) with
       | .vList subs =>
         if subs.isEmpty then p
         else
           dictSet p "completion_percentage"
             (.vInt (completionPct (countCompleted subs) subs.length))
       | _ => p) :: t
    else p :: recalculate_completion t pid

/-- `delete_subtask` (app.py): in the first project whose id matches, pop the
subtask at `sub_idx` when `0 <= sub_idx < len(subtasks)`, then recompute
`completion_percentage` from the remaining subtasks (`0` when none remain). -/
def delete_subtask : List PyDict → String → Int → List PyDict
  | [], _, _ => []
  | p :: t, pid, subIdx =>
    if idMatches p pid then
      (match dictGetD p "subtasks" (.vList []) with
       | .vList subs =>
         if 0 ≤ subIdx ∧ subIdx < (subs.length : Int) then
           let rest := subs.eraseIdx subIdx.toNat
           let p1 := dictSet p "subtasks" (.vList rest)
           if rest.isEmpty then dictSet p1 "completion_percentage" (.vInt 0)
           else
             dictSet p1 "completion_percentage"
               (.vInt (completionPct (countCompleted rest) rest.length))
         else p
       | _ => p) :: t
    else p :: delete_subtask t pid subIdx

/-- `move_subtask_to_position` (app.py): in the first project whose id
matches, pop the subtask at `from_idx` and re-insert it at `to_idx`, but only
when both indices satisfy `0 <= idx < len(subtasks)`. -/
def move_subtask_to_position : List PyDict → String → Int → Int → List PyDict
  | [], _, _, _ => []
  | p :: t, pid, fromIdx, toIdx =>
    if idMatches p pid then
      (match dictGetD p "subtasks" (.vList []) with
       | .vList subs =>
         if (0 ≤ fromIdx ∧ fromIdx < (subs.length : Int)) ∧
             (0 ≤ toIdx ∧ toIdx < (subs.length : Int)) then
           let item := subs.getD fromIdx.toNat .vNull
           dictSet p "subtasks"
             (.vList ((subs.eraseIdx fromIdx.toNat).insertIdx toIdx.toNat item))
         else p
       | _ => p) :: t
    else p :: move_subtask_to_position t pid fromIdx toIdx

/-- `move_subtask` (app.py): in the first project whose id matches, swap the
subtasks at `from_idx` and `to_idx` (simultaneous tuple assignment), but only
when both indices satisfy `0 <= idx < len(subtasks)`. -/
def move_subtask : List PyDict → String → Int → Int → List PyDict
  | [], _, _, _ => []
  | p :: t, pid, fromIdx, toIdx =>
    if idMatches p pid then
      (match dictGetD p "subtasks" (.vList []) with
       | .vList subs =>
         if (0 ≤ fromIdx ∧ fromIdx < (subs.length : Int)) ∧
             (0 ≤ toIdx ∧ toIdx < (subs.length : Int)) then
           let a := subs.getD fromIdx.toNat .vNull
           let b := subs.getD toIdx.toNat .vNull
           dictSet p "subtasks"
             (.vList ((subs.set fromIdx.toNat b).set toIdx.toNat a))
         else p
       | _ => p) :: t
    else p :: move_subtask t pid fromIdx toIdx


/-- The transformation `_deserialize_dates` applies to a single dict entry
`(k, v)` (factored out of `deserializeDatesD` for reasoning about lookups). -/
def deserializeEntry (fields : List String) (k : String) (v : Value) : Value :=
  if fields.contains k then
    match v with
    | .vStr s =>
      match fromisoformatDate s with
      | some d => .vDate d
      | none => .vStr s
    | _ => deserialize_dates v fields
  else deserialize_dates v fields

mutual
/-- Values that survive a save/load cycle unchanged: no `date`/`datetime`
object outside a recognized date field, and every recognized date field of
every dict holds a (valid) `date` object. -/
def goodV : Value → Bool
  | .vNull => true
  | .vBool _ => true
  | .vInt _ => true
  | .vStr _ => true
  | .vDate _ => false
  | .vDateTime _ _ => false
  | .vList l => goodL l
  | .vDict d => goodD d
def goodL : List Value → Bool
  | [] => true
  | v :: t => goodV v && goodL t
def goodD : PyDict → Bool
  | [] => true
  | (k, v) :: t =>
    (if dateFields.contains k then
       match v with
       | .vDate d => validDate d
       | _ => false
     else goodV v) && goodD t
end

/-- The due date `get_status_with_overdue` ends up comparing against today:
the `due_date` field itself when it is a `date` object, the parse of its
string value otherwise. -/
def dueDateOf (p : PyDict) : Option PyDate :=
  match dictGetD p "due_date" .vNull with
  | .vDate d => some d
  | .vStr s => fromisoformatDate s
  | _ => none

/-- Records on which `get_status_with_overdue` does not raise: the `due_date`
field is absent/falsy, a `date` object, or a parseable ISO string. -/
def dueDateWF (p : PyDict) : Bool :=
  match dictGetD p "due_date" .vNull with
  | .vDate _ => true
  | .vStr s => (fromisoformatDate s).isSome || s == ""
  | v => !pyTruthy v

theorem padDigits_length (k n : Nat) : (padDigits k n).length = k := by
  induction k generalizing n with
  | zero => rfl
  | succ k ih => simp [padDigits, ih]

theorem digitChar_toNat (n : Nat) : (digitChar n).toNat = 48 + n % 10 := by
  have h : n % 10 < 10 := Nat.mod_lt _ (by omega)
  unfold digitChar
  set m := n % 10 with hm
  interval_cases m <;> rfl

theorem isDigitChar_digitChar (n : Nat) : isDigitChar (digitChar n) = true := by
  have h : n % 10 < 10 := Nat.mod_lt _ (by omega)
  unfold digitChar isDigitChar
  set m := n % 10 with hm
  interval_cases m <;> rfl

theorem padDigits_all_digits (k n : Nat) :
    (padDigits k n).all isDigitChar = true := by
  induction k generalizing n with
  | zero => rfl
  | succ k ih => simp [padDigits, List.all_append, ih, isDigitChar_digitChar]

theorem foldl_padDigits (k : Nat) : ∀ n a, n < 10 ^ k →
    (padDigits k n).foldl (fun a c => 10 * a + (c.toNat - 48)) a =
      a * 10 ^ k + n := by
  induction k with
  | zero =>
    intro n a h
    simp only [pow_zero, Nat.lt_one_iff] at h
    simp [padDigits, h]
  | succ k ih =>
    intro n a h
    have hdiv : n / 10 < 10 ^ k := by
      have hp : (10 : Nat) ^ (k + 1) = 10 ^ k * 10 := pow_succ 10 k
      rw [hp] at h
      omega
    rw [padDigits, List.foldl_append, ih (n / 10) a hdiv]
    simp only [List.foldl_cons, List.foldl_nil, digitChar_toNat,
      Nat.add_sub_cancel_left]
    rw [pow_succ, ← Nat.mul_assoc]
    generalize a * 10 ^ k = A
    omega

theorem digitsToNat_padDigits (k n : Nat) (h : n < 10 ^ k) :
    digitsToNat (padDigits k n) = n := by
  unfold digitsToNat
  rw [foldl_padDigits k n 0 h]
  omega

theorem parseFixedNat_append (k : Nat) (l rest : List Char)
    (hlen : l.length = k) (hall : l.all isDigitChar = true) :
    parseFixedNat k (l ++ rest) = some (digitsToNat l, rest) := by
  subst hlen
  unfold parseFixedNat
  rw [List.take_left, List.drop_left]
  simp [hall]

theorem parseFixedNat_padDigits (k n : Nat) (rest : List Char) (h : n < 10 ^ k) :
    parseFixedNat k (padDigits k n ++ rest) = some (n, rest) := by
  rw [parseFixedNat_append k (padDigits k n) rest (padDigits_length k n)
    (padDigits_all_digits k n), digitsToNat_padDigits k n h]

theorem daysInMonth_le (y m : Nat) : daysInMonth y m ≤ 31 := by
  unfold daysInMonth
  split_ifs <;> omega


theorem expectChar_cons_self (c : Char) (l : List Char) :
    expectChar c (c :: l) = some l := by
  simp [expectChar]

theorem parseFixedNat_padDigits_nil (k n : Nat) (h : n < 10 ^ k) :
    parseFixedNat k (padDigits k n) = some (n, []) := by
  have hx := parseFixedNat_padDigits k n [] h
  rwa [List.append_nil] at hx

theorem fromisoformat_dateIso (d : PyDate) (h : validDate d = true) :
    fromisoformat (dateIso d) = some (d, ⟨0, 0, 0, 0⟩) := by
  have hv := h
  simp only [validDate, Bool.and_eq_true, decide_eq_true_eq] at h
  obtain ⟨⟨⟨⟨⟨h1, h2⟩, h3⟩, h4⟩, h5⟩, h6⟩ := h
  have hda : d.day ≤ 31 := le_trans h6 (daysInMonth_le d.year d.month)
  have hy : d.year < 10 ^ 4 := by omega
  have hm : d.month < 10 ^ 2 := by omega
  have hd : d.day < 10 ^ 2 := by omega
  simp only [fromisoformat, dateIso]
  rw [parseFixedNat_padDigits 4 d.year _ hy]
  simp only [Option.bind_eq_bind, Option.some_bind, expectChar_cons_self]
  rw [parseFixedNat_padDigits 2 d.month _ hm]
  simp only [Option.some_bind, expectChar_cons_self]
  rw [parseFixedNat_padDigits_nil 2 d.day hd]
  simp only [Option.some_bind]
  rw [if_pos hv]

set_option maxHeartbeats 2000000 in
theorem fromisoformat_datetimeIso (d : PyDate) (t : PyTime)
    (hd : validDate d = true) (ht : validTime t = true) :
    fromisoformat (datetimeIso d t) = some (d, t) := by
  have hvd := hd
  have hvt := ht
  simp only [validDate, Bool.and_eq_true, decide_eq_true_eq] at hd
  obtain ⟨⟨⟨⟨⟨h1, h2⟩, h3⟩, h4⟩, h5⟩, h6⟩ := hd
  simp only [validTime, Bool.and_eq_true, decide_eq_true_eq] at ht
  obtain ⟨⟨⟨g1, g2⟩, g3⟩, g4⟩ := ht
  have hda : d.day ≤ 31 := le_trans h6 (daysInMonth_le d.year d.month)
  have hy : d.year < 10 ^ 4 := by omega
  have hm : d.month < 10 ^ 2 := by omega
  have hdd : d.day < 10 ^ 2 := by omega
  have hh : t.hour < 10 ^ 2 := by omega
  have hmi : t.minute < 10 ^ 2 := by omega
  have hse : t.second < 10 ^ 2 := by omega
  have hus : t.microsecond < 10 ^ 6 := by omega
  by_cases hzero : t.microsecond = 0
  · simp only [fromisoformat, datetimeIso, dateIso]
    rw [if_pos hzero]
    simp only [List.append_assoc, List.cons_append, List.append_nil]
    rw [parseFixedNat_padDigits 4 d.year _ hy]
    simp only [Option.bind_eq_bind, Option.some_bind, expectChar_cons_self]
    rw [parseFixedNat_padDigits 2 d.month _ hm]
    simp only [Option.some_bind, expectChar_cons_self]
    rw [parseFixedNat_padDigits 2 d.day _ hdd]
    simp only [Option.some_bind]
    rw [if_pos hvd]
    simp only [eq_self_iff_true, true_or, if_true]
    rw [parseFixedNat_padDigits 2 t.hour _ hh]
    simp only [Option.some_bind, expectChar_cons_self]
    rw [parseFixedNat_padDigits 2 t.minute _ hmi]
    simp only [Option.some_bind, expectChar_cons_self]
    rw [parseFixedNat_padDigits_nil 2 t.second hse]
    simp only [Option.some_bind, true_and]
    have hvt2 : validTime ⟨t.hour, t.minute, t.second, 0⟩ = true := by
      rw [← hzero]
      exact hvt
    rw [if_pos hvt2]
    rw [← hzero]
  · simp only [fromisoformat, datetimeIso, dateIso]
    rw [if_neg hzero]
    simp only [List.append_assoc, List.cons_append]
    rw [parseFixedNat_padDigits 4 d.year _ hy]
    simp only [Option.bind_eq_bind, Option.some_bind, expectChar_cons_self]
    rw [parseFixedNat_padDigits 2 d.month _ hm]
    simp only [Option.some_bind, expectChar_cons_self]
    rw [parseFixedNat_padDigits 2 d.day _ hdd]
    simp only [Option.some_bind]
    rw [if_pos hvd]
    simp only [eq_self_iff_true, true_or, if_true]
    rw [parseFixedNat_padDigits 2 t.hour _ hh]
    simp only [Option.some_bind, expectChar_cons_self]
    rw [parseFixedNat_padDigits 2 t.minute _ hmi]
    simp only [Option.some_bind, expectChar_cons_self]
    rw [parseFixedNat_padDigits 2 t.second _ hse]
    simp only [Option.some_bind, eq_self_iff_true, if_true]
    rw [parseFixedNat_padDigits_nil 6 t.microsecond hus]
    simp only [Option.some_bind, true_and]
    have hvt2 : validTime ⟨t.hour, t.minute, t.second, t.microsecond⟩ = true := hvt
    rw [if_pos hvt2]


theorem dictGet_dictSet_self (d : PyDict) (k : String) (v : Value) :
    dictGet (dictSet d k v) k = some v := by
  induction d with
  | nil => simp [dictSet, dictGet]
  | cons kv t ih =>
    obtain ⟨k0, v0⟩ := kv
    by_cases h : k0 = k
    · subst h
      simp [dictSet, dictGet]
    · simp [dictSet, dictGet, h, ih]

theorem dictGet_dictSet_ne (d : PyDict) (k k2 : String) (v : Value)
    (h : k ≠ k2) : dictGet (dictSet d k v) k2 = dictGet d k2 := by
  induction d with
  | nil => simp [dictSet, dictGet, h]
  | cons kv t ih =>
    obtain ⟨k0, v0⟩ := kv
    by_cases h0 : k0 = k
    · subst h0
      simp [dictSet, dictGet, h, ih]
    · simp only [dictSet, if_neg h0, dictGet]
      by_cases h2 : k0 = k2 <;> simp [h2, ih]

theorem serializeDatesL_append (l1 l2 : List Value) :
    serializeDatesL (l1 ++ l2) = serializeDatesL l1 ++ serializeDatesL l2 := by
  induction l1 with
  | nil => rfl
  | cons v t ih => simp [serializeDatesL, ih]

theorem deserializeDatesL_append (l1 l2 : List Value) (fields : List String) :
    deserializeDatesL (l1 ++ l2) fields =
      deserializeDatesL l1 fields ++ deserializeDatesL l2 fields := by
  induction l1 with
  | nil => rfl
  | cons v t ih => simp [deserializeDatesL, ih]

theorem dictGet_serializeDatesD (l : PyDict) (k : String) :
    dictGet (serializeDatesD l) k = (dictGet l k).map serialize_dates := by
  induction l with
  | nil => rfl
  | cons kv t ih =>
    obtain ⟨k0, v0⟩ := kv
    by_cases h : k0 = k <;> simp [serializeDatesD, dictGet, h, ih]

theorem deserializeDatesD_cons (k : String) (v : Value) (t : PyDict)
    (fields : List String) :
    deserializeDatesD ((k, v) :: t) fields =
      (k, deserializeEntry fields k v) :: deserializeDatesD t fields := by
  by_cases hc : fields.contains k = true
  · simp only [deserializeDatesD, deserializeEntry, if_pos hc]
    cases v <;> rfl
  · simp only [deserializeDatesD, deserializeEntry, if_neg hc]

theorem dictGet_deserializeDatesD (l : PyDict) (fields : List String)
    (k : String) :
    dictGet (deserializeDatesD l fields) k =
      (dictGet l k).map (deserializeEntry fields k) := by
  induction l with
  | nil => rfl
  | cons kv t ih =>
    obtain ⟨k0, v0⟩ := kv
    rw [deserializeDatesD_cons]
    by_cases h : k0 = k <;> simp [dictGet, h, ih]


theorem fromisoformatDate_dateIso (d : PyDate) (h : validDate d = true) :
    fromisoformatDate (dateIso d) = some d := by
  simp [fromisoformatDate, fromisoformat_dateIso d h]

theorem fromisoformatDate_datetimeIso (d : PyDate) (t : PyTime)
    (hd : validDate d = true) (ht : validTime t = true) :
    fromisoformatDate (datetimeIso d t) = some d := by
  simp [fromisoformatDate, fromisoformat_datetimeIso d t hd ht]

mutual
theorem roundtrip_serializeV : ∀ v : Value, goodV v = true →
    deserialize_dates (serialize_dates v) dateFields = v
  | .vNull, _ => rfl
  | .vBool _, _ => rfl
  | .vInt _, _ => rfl
  | .vStr _, _ => rfl
  | .vDate _, h => absurd h (by simp [goodV])
  | .vDateTime _ _, h => absurd h (by simp [goodV])
  | .vList l, h => by
    simp only [serialize_dates, deserialize_dates]
    rw [roundtrip_serializeL l (by simpa [goodV] using h)]
  | .vDict l, h => by
    simp only [serialize_dates, deserialize_dates]
    rw [roundtrip_serializeD l (by simpa [goodV] using h)]
theorem roundtrip_serializeL : ∀ l : List Value, goodL l = true →
    deserializeDatesL (serializeDatesL l) dateFields = l
  | [], _ => rfl
  | v :: t, h => by
    simp only [goodL, Bool.and_eq_true] at h
    simp only [serializeDatesL, deserializeDatesL]
    rw [roundtrip_serializeV v h.1, roundtrip_serializeL t h.2]
theorem roundtrip_serializeD : ∀ l : PyDict, goodD l = true →
    deserializeDatesD (serializeDatesD l) dateFields = l
  | [], _ => rfl
  | (k, v) :: t, h => by
    simp only [goodD, Bool.and_eq_true] at h
    obtain ⟨h1, h2⟩ := h
    simp only [serializeDatesD]
    rw [deserializeDatesD_cons]
    by_cases hc : dateFields.contains k = true
    · rw [if_pos hc] at h1
      obtain ⟨dd, rfl, hval⟩ : ∃ dd, v = Value.vDate dd ∧ validDate dd = true := by
        cases v
        case vDate dd => exact ⟨dd, rfl, h1⟩
        all_goals simp at h1
      simp only [serialize_dates, deserializeEntry, if_pos hc]
      rw [fromisoformatDate_dateIso dd hval, roundtrip_serializeD t h2]
    · rw [if_neg hc] at h1
      have hv := roundtrip_serializeV v h1
      have ht := roundtrip_serializeD t h2
      simp only [deserializeEntry, if_neg hc]
      rw [ht]
      cases v <;> simp_all [serialize_dates, deserialize_dates]
end


/-- C1, counterexample: the round-trip law fails as stated.  The app itself
stores date fields as ISO strings (e.g. `add_new_subtask` writes
`date.today().isoformat()`, and `add_project` stamps ISO strings); loading
turns such a string into a `date` object, so `load` after `save` is not
structurally equal to the input list. -/
theorem c1_roundtrip_counterexample :
    load_projects (save_projects [[("due_date", Value.vStr "2026-03-31")]]) ≠
      Value.vList [Value.vDict [("due_date", Value.vStr "2026-03-31")]] := by
  decide

/-- C1 (amended): for every project list in which each value stored under a
recognized date field is a (valid) calendar-date object and no date or
datetime object occurs anywhere else, `save_projects` followed by
`load_projects` returns the list structurally unchanged — in particular every
date field round-trips to the identical calendar value. -/
theorem c1_saveLoad_roundtrip (ps : List PyDict)
    (h : goodL (ps.map Value.vDict) = true) :
    load_projects (save_projects ps) = Value.vList (ps.map Value.vDict) := by
  show deserialize_dates (serialize_dates (Value.vList (ps.map Value.vDict)))
      dateFields = Value.vList (ps.map Value.vDict)
  exact roundtrip_serializeV _ (by simpa [goodV] using h)

/-- Witness for `c1_saveLoad_roundtrip` at a concrete one-project store. -/
theorem c1_saveLoad_roundtrip_witness :
    load_projects (save_projects
        [[("id", Value.vStr "p1"), ("due_date", Value.vDate ⟨2026, 3, 31⟩)]]) =
      Value.vList [Value.vDict
        [("id", Value.vStr "p1"), ("due_date", Value.vDate ⟨2026, 3, 31⟩)]] :=
  c1_saveLoad_roundtrip _ (by decide)

/-- C3: `load_projects` returns the empty list both when the backing file is
missing and when it is unreadable (I/O error or invalid JSON); the caller sees
the same empty sequence as for an empty store, and no exception escapes. -/
theorem c3_load_silent_degrade :
    load_projects FileState.missing = Value.vList [] ∧
      load_projects FileState.unreadable = Value.vList [] :=
  ⟨rfl, rfl⟩


/-- C4: when no project in the list has the given id, `update_project`
returns the list unchanged — in particular no project's `updated_at` is
touched. -/
theorem c4_update_absent_id_noop (ps : List PyDict) (pid : String)
    (updates : PyDict) (now : String)
    (h : ∀ p ∈ ps, idMatches p pid = false) :
    update_project ps pid updates now = ps := by
  induction ps with
  | nil => rfl
  | cons p t ih =>
    have hp : idMatches p pid = false := h p (by simp)
    simp only [update_project, hp, Bool.false_eq_true, if_false]
    rw [ih (fun q hq => h q (by simp [hq]))]

/-- Witness for `c4_update_absent_id_noop` at a concrete store. -/
theorem c4_update_absent_id_noop_witness :
    update_project [[("id", Value.vStr "p1"), ("updated_at", Value.vStr "x")]]
        "p2" [("name", Value.vStr "n")] "2026-01-01T00:00:00" =
      [[("id", Value.vStr "p1"), ("updated_at", Value.vStr "x")]] :=
  c4_update_absent_id_noop _ _ _ _ (by decide)

/-- C5: `delete_project` returns exactly the projects whose id does not match
(the comprehension is a filter), preserving relative order (the result is a
sublist of the input); the input list itself is not mutated (the operation is
a pure function returning a new list). -/
theorem c5_delete_filter (ps : List PyDict) (pid : String) :
    delete_project ps pid = ps.filter (fun p => !idMatches p pid) ∧
      (delete_project ps pid).Sublist ps := by
  have hf : delete_project ps pid = ps.filter (fun p => !idMatches p pid) := by
    induction ps with
    | nil => rfl
    | cons p t ih =>
      by_cases h : idMatches p pid <;>
        simp [delete_project, List.filter_cons, h, ih]
  exact ⟨hf, hf ▸ List.filter_sublist ps⟩

/-- C7: when the list contains a project with the given id, `update_project`
merges the updates into the first such project, stamps its `updated_at` with
the current time, and leaves every other element (before and after) unchanged. -/
theorem c7_update_present_id (A B : List PyDict) (p : PyDict) (pid : String)
    (updates : PyDict) (now : String)
    (hA : ∀ q ∈ A, idMatches q pid = false)
    (hp : idMatches p pid = true) :
    update_project (A ++ p :: B) pid updates now =
      A ++ dictSet (dictUpdate p updates) "updated_at" (.vStr now) :: B := by
  induction A with
  | nil => simp [update_project, hp]
  | cons q t ih =>
    have hq : idMatches q pid = false := hA q (by simp)
    simp only [List.cons_append, update_project, hq, Bool.false_eq_true,
      if_false, List.append_eq]
    rw [ih (fun r hr => hA r (by simp [hr]))]

/-- Witness for `c7_update_present_id`: the first of two same-id projects is
updated and stamped, the second is untouched. -/
theorem c7_update_present_id_witness :
    update_project
        [[("id", Value.vStr "p0")],
         [("id", Value.vStr "p1"), ("name", Value.vStr "old")],
         [("id", Value.vStr "p1")]]
        "p1" [("name", Value.vStr "new"), ("budget", Value.vInt 5)]
        "2026-01-01T00:00:00" =
      [[("id", Value.vStr "p0")],
       [("id", Value.vStr "p1"), ("name", Value.vStr "new"),
        ("budget", Value.vInt 5),
        ("updated_at", Value.vStr "2026-01-01T00:00:00")],
       [("id", Value.vStr "p1")]] := by
  have h := c7_update_present_id [[("id", Value.vStr "p0")]]
    [[("id", Value.vStr "p1")]]
    [("id", Value.vStr "p1"), ("name", Value.vStr "old")] "p1"
    [("name", Value.vStr "new"), ("budget", Value.vInt 5)]
    "2026-01-01T00:00:00" (by decide) (by decide)
  simpa using h


theorem get_status_eq_of_completed (p : PyDict) (today : PyDate)
    (hst : dictGetD p "status" (.vStr "Not Started") = .vStr "Completed") :
    get_status_with_overdue p today =
      some (dictGetD p "status" (.vStr "Not Started")) := by
  simp only [get_status_with_overdue, hst, eq_self_iff_true, if_true]

theorem get_status_eq_of_not_completed (p : PyDict) (today : PyDate)
    (hwf : dueDateWF p = true)
    (hst : dictGetD p "status" (.vStr "Not Started") ≠ .vStr "Completed") :
    get_status_with_overdue p today =
      some ((dueDateOf p).elim (dictGetD p "status" (.vStr "Not Started"))
        (fun d => if dateLT d today then Value.vStr "Overdue"
                  else dictGetD p "status" (.vStr "Not Started"))) := by
  simp only [get_status_with_overdue, dueDateOf, if_neg hst]
  cases hdd : dictGetD p "due_date" Value.vNull with
  | vNull =>
    rw [show pyTruthy Value.vNull = false from rfl]
    simp [Option.elim]
  | vBool b =>
    simp only [dueDateWF, hdd, Bool.not_eq_true'] at hwf
    rw [hwf]
    simp [Option.elim]
  | vInt n =>
    simp only [dueDateWF, hdd, Bool.not_eq_true'] at hwf
    rw [hwf]
    simp [Option.elim]
  | vStr str =>
    by_cases hemp : str = ""
    · subst hemp
      rw [show pyTruthy (Value.vStr "") = false from rfl]
      simp [Option.elim, show fromisoformatDate "" = none from rfl]
    · simp only [dueDateWF, hdd, Bool.or_eq_true] at hwf
      have hps : (fromisoformatDate str).isSome = true :=
        hwf.resolve_right (fun hc => hemp (by simpa using hc))
      obtain ⟨d, hd⟩ := Option.isSome_iff_exists.mp hps
      have htr : pyTruthy (Value.vStr str) = true := by
        simp [pyTruthy, hemp]
      rw [htr, if_pos rfl]
      simp only [hd, Option.elim, apply_ite]
      split <;> simp_all
  | vDate d =>
    rw [show pyTruthy (Value.vDate d) = true from rfl, if_pos rfl]
    simp only [Option.elim, apply_ite]
    split <;> simp_all
  | vDateTime d t =>
    simp only [dueDateWF, hdd, Bool.not_eq_true'] at hwf
    exact absurd hwf (by simp [pyTruthy])
  | vList l =>
    simp only [dueDateWF, hdd, Bool.not_eq_true'] at hwf
    rw [hwf]
    simp [Option.elim]
  | vDict l =>
    simp only [dueDateWF, hdd, Bool.not_eq_true'] at hwf
    rw [hwf]
    simp [Option.elim]


/-- C2: for every well-formed project record (parseable-or-absent `due_date`,
and a stored base status, which per the data model is never the derived
string `Overdue`), `get_status_with_overdue` returns `Overdue` iff the stored
status is not `Completed` and the due date is strictly before today; a
`Completed` project stays `Completed` regardless of its due date; and when
the due date is absent or not past, the stored (defaulted) status is returned
unchanged. -/
theorem c2_derived_status (p : PyDict) (today : PyDate)
    (hwf : dueDateWF p = true)
    (hbase : dictGetD p "status" (.vStr "Not Started") ≠ .vStr "Overdue") :
    (get_status_with_overdue p today = some (.vStr "Overdue") ↔
      (dictGetD p "status" (.vStr "Not Started") ≠ .vStr "Completed" ∧
        ∃ d, dueDateOf p = some d ∧ dateLT d today = true)) ∧
    (dictGetD p "status" (.vStr "Not Started") = .vStr "Completed" →
      get_status_with_overdue p today = some (.vStr "Completed")) ∧
    ((∀ d, dueDateOf p = some d → dateLT d today = false) →
      get_status_with_overdue p today =
        some (dictGetD p "status" (.vStr "Not Started"))) := by
  by_cases hst : dictGetD p "status" (.vStr "Not Started") = .vStr "Completed"
  · have h := get_status_eq_of_completed p today hst
    refine ⟨?_, fun _ => by rw [h, hst], fun _ => h⟩
    rw [h, hst]
    constructor
    · intro hh
      exact absurd (Option.some.inj hh) (by simp)
    · rintro ⟨hne, _⟩
      exact absurd rfl hne
  · have h := get_status_eq_of_not_completed p today hwf hst
    refine ⟨?_, fun hcc => absurd hcc hst, ?_⟩
    · rw [h]
      rcases hdof : dueDateOf p with _ | d
      · simp only [Option.elim]
        constructor
        · intro hh
          exact absurd (Option.some.inj hh) hbase
        · rintro ⟨_, d', hd', _⟩
          exact Option.noConfusion hd'
      · simp only [Option.elim]
        by_cases hlt : dateLT d today = true
        · rw [if_pos hlt]
          exact ⟨fun _ => ⟨hst, d, rfl, hlt⟩, fun _ => rfl⟩
        · rw [if_neg hlt]
          constructor
          · intro hh
            exact absurd (Option.some.inj hh) hbase
          · rintro ⟨_, d', hd', hlt'⟩
            obtain rfl : d = d' := Option.some.inj hd'
            exact absurd hlt' hlt
    · intro hno
      rw [h]
      rcases hdof : dueDateOf p with _ | d
      · simp [Option.elim]
      · simp [Option.elim, hno d hdof]

/-- Witness for `c2_derived_status`: an In-Progress project one day overdue is
displayed `Overdue`; a Completed project with the same past due date stays
`Completed`. -/
theorem c2_derived_status_witness :
    get_status_with_overdue
        [("status", Value.vStr "In Progress"),
         ("due_date", Value.vDate ⟨2026, 1, 1⟩)] ⟨2026, 10, 12⟩ =
      some (Value.vStr "Overdue") ∧
    get_status_with_overdue
        [("status", Value.vStr "Completed"),
         ("due_date", Value.vDate ⟨2026, 1, 1⟩)] ⟨2026, 10, 12⟩ =
      some (Value.vStr "Completed") := by
  constructor
  · exact (c2_derived_status
      [("status", Value.vStr "In Progress"),
       ("due_date", Value.vDate ⟨2026, 1, 1⟩)] ⟨2026, 10, 12⟩
      (by decide) (by decide)).1.mpr
      ⟨by decide, ⟨2026, 1, 1⟩, by decide, by decide⟩
  · exact (c2_derived_status
      [("status", Value.vStr "Completed"),
       ("due_date", Value.vDate ⟨2026, 1, 1⟩)] ⟨2026, 10, 12⟩
      (by decide) (by decide)).2.1 (by decide)


theorem padDigits_inj (k a b : Nat) (ha : a < 10 ^ k) (hb : b < 10 ^ k)
    (h : padDigits k a = padDigits k b) : a = b := by
  have hv := congrArg digitsToNat h
  rwa [digitsToNat_padDigits k a ha, digitsToNat_padDigits k b hb] at hv

theorem strftimeStamp_inj (d1 d2 : PyDate) (t1 t2 : PyTime)
    (hd1 : validDate d1 = true) (ht1 : validTime t1 = true)
    (hd2 : validDate d2 = true) (ht2 : validTime t2 = true)
    (h : strftimeStamp d1 t1 = strftimeStamp d2 t2) : d1 = d2 ∧ t1 = t2 := by
  simp only [validDate, Bool.and_eq_true, decide_eq_true_eq] at hd1 hd2
  obtain ⟨⟨⟨⟨⟨a1, a2⟩, a3⟩, a4⟩, a5⟩, a6⟩ := hd1
  obtain ⟨⟨⟨⟨⟨b1, b2⟩, b3⟩, b4⟩, b5⟩, b6⟩ := hd2
  simp only [validTime, Bool.and_eq_true, decide_eq_true_eq] at ht1 ht2
  obtain ⟨⟨⟨c1, c2⟩, c3⟩, c4⟩ := ht1
  obtain ⟨⟨⟨e1, e2⟩, e3⟩, e4⟩ := ht2
  have hda1 : d1.day ≤ 31 := le_trans a6 (daysInMonth_le d1.year d1.month)
  have hda2 : d2.day ≤ 31 := le_trans b6 (daysInMonth_le d2.year d2.month)
  have hl := congrArg String.data h
  simp only [strftimeStamp] at hl
  obtain ⟨p1, hl⟩ := List.append_inj hl (by rw [padDigits_length, padDigits_length])
  obtain ⟨p2, hl⟩ := List.append_inj hl (by rw [padDigits_length, padDigits_length])
  obtain ⟨p3, hl⟩ := List.append_inj hl (by rw [padDigits_length, padDigits_length])
  obtain ⟨p4, hl⟩ := List.append_inj hl (by rw [padDigits_length, padDigits_length])
  obtain ⟨p5, hl⟩ := List.append_inj hl (by rw [padDigits_length, padDigits_length])
  obtain ⟨p6, p7⟩ := List.append_inj hl (by rw [padDigits_length, padDigits_length])
  have hy := padDigits_inj 4 _ _ (by omega) (by omega) p1
  have hmo := padDigits_inj 2 _ _ (by omega) (by omega) p2
  have hda := padDigits_inj 2 _ _ (by omega) (by omega) p3
  have hh := padDigits_inj 2 _ _ (by omega) (by omega) p4
  have hmi := padDigits_inj 2 _ _ (by omega) (by omega) p5
  have hse := padDigits_inj 2 _ _ (by omega) (by omega) p6
  have hus := padDigits_inj 6 _ _ (by omega) (by omega) p7
  obtain ⟨y1, mo1, da1⟩ := d1
  obtain ⟨y2, mo2, da2⟩ := d2
  obtain ⟨h1, mi1, se1, us1⟩ := t1
  obtain ⟨h2, mi2, se2, us2⟩ := t2
  simp only [PyDate.mk.injEq, PyTime.mk.injEq]
  exact ⟨⟨hy, hmo, hda⟩, hh, hmi, hse, hus⟩

/-- C8, counterexample: distinctness of two immediately-successive calls is
not guaranteed — each id is a pure function of the clock reading
(`datetime.now()`), so two calls that observe the same microsecond return the
very same string (the spec itself concedes same-microsecond collisions). -/
theorem c8_id_counterexample :
    generate_project_id ⟨2026, 1, 1⟩ ⟨12, 0, 0, 0⟩ =
      generate_project_id ⟨2026, 1, 1⟩ ⟨12, 0, 0, 0⟩ ∧
    generate_project_id ⟨2026, 1, 1⟩ ⟨12, 0, 0, 0⟩ =
      "proj_20260101120000000000" := by
  exact ⟨rfl, by decide⟩

/-- C8 (amended): each generator returns its fixed type prefix (`proj_` /
`task_`) followed by the microsecond-resolution timestamp, and the timestamp
rendering is injective on valid clock readings — so any two calls whose clock
readings differ yield distinct strings. -/
theorem c8_id_generation (d1 d2 : PyDate) (t1 t2 : PyTime)
    (hd1 : validDate d1 = true) (ht1 : validTime t1 = true)
    (hd2 : validDate d2 = true) (ht2 : validTime t2 = true)
    (hne : (d1, t1) ≠ (d2, t2)) :
    generate_project_id d1 t1 = "proj_" ++ strftimeStamp d1 t1 ∧
    generate_subtask_id d1 t1 = "task_" ++ strftimeStamp d1 t1 ∧
    generate_project_id d1 t1 ≠ generate_project_id d2 t2 ∧
    generate_subtask_id d1 t1 ≠ generate_subtask_id d2 t2 := by
  have key : strftimeStamp d1 t1 ≠ strftimeStamp d2 t2 := by
    intro hs
    obtain ⟨hd, ht⟩ := strftimeStamp_inj d1 d2 t1 t2 hd1 ht1 hd2 ht2 hs
    exact hne (by rw [hd, ht])
  refine ⟨rfl, rfl, ?_, ?_⟩ <;> intro hEq
  · have hdata := congrArg String.data hEq
    simp only [generate_project_id, String.data_append] at hdata
    exact key (String.ext (List.append_inj hdata rfl).2)
  · have hdata := congrArg String.data hEq
    simp only [generate_subtask_id, String.data_append] at hdata
    exact key (String.ext (List.append_inj hdata rfl).2)


/-- Witness for `c8_id_generation`: clock readings one microsecond apart give
distinct project ids and distinct subtask ids. -/
theorem c8_id_generation_witness :
    generate_project_id ⟨2026, 1, 1⟩ ⟨12, 0, 0, 0⟩ ≠
      generate_project_id ⟨2026, 1, 1⟩ ⟨12, 0, 0, 1⟩ ∧
    generate_subtask_id ⟨2026, 1, 1⟩ ⟨12, 0, 0, 0⟩ ≠
      generate_subtask_id ⟨2026, 1, 1⟩ ⟨12, 0, 0, 1⟩ := by
  have h := c8_id_generation ⟨2026, 1, 1⟩ ⟨2026, 1, 1⟩ ⟨12, 0, 0, 0⟩
    ⟨12, 0, 0, 1⟩ (by decide) (by decide) (by decide) (by decide) (by decide)
  exact ⟨h.2.2.1, h.2.2.2⟩


/-- C9: one save/load cycle turns the ISO datetime strings stamped by
`add_project` into plain calendar dates — the time of day is discarded.  The
added project comes back with `created_at` and `updated_at` equal to the
`date` part of the stamp. -/
theorem c9_datetime_truncated (ps : List PyDict) (p : PyDict)
    (d : PyDate) (t : PyTime)
    (hd : validDate d = true) (ht : validTime t = true) :
    ∃ front q,
      load_projects (save_projects (add_project ps p d t)) =
        Value.vList (front ++ [Value.vDict q]) ∧
      dictGet q "created_at" = some (Value.vDate d) ∧
      dictGet q "updated_at" = some (Value.vDate d) := by
  refine ⟨deserializeDatesL (serializeDatesL (ps.map Value.vDict)) dateFields,
    deserializeDatesD (serializeDatesD (dictSet (dictSet p "created_at"
      (.vStr (datetimeIso d t))) "updated_at" (.vStr (datetimeIso d t))))
      dateFields, ?_, ?_, ?_⟩
  · show deserialize_dates (serialize_dates
      (Value.vList ((add_project ps p d t).map Value.vDict))) dateFields = _
    simp only [add_project, List.map_append, List.map_cons, List.map_nil]
    simp only [serialize_dates, deserialize_dates]
    rw [serializeDatesL_append, deserializeDatesL_append]
    simp only [serializeDatesL, deserializeDatesL, serialize_dates,
      deserialize_dates]
  · rw [dictGet_deserializeDatesD, dictGet_serializeDatesD]
    rw [dictGet_dictSet_ne _ _ _ _ (by decide), dictGet_dictSet_self]
    simp [deserializeEntry, serialize_dates,
      fromisoformatDate_datetimeIso d t hd ht]
    intro hmem
    exact absurd (show "created_at" ∈ dateFields by decide) hmem
  · rw [dictGet_deserializeDatesD, dictGet_serializeDatesD]
    rw [dictGet_dictSet_self]
    simp [deserializeEntry, serialize_dates,
      fromisoformatDate_datetimeIso d t hd ht]
    intro hmem
    exact absurd (show "updated_at" ∈ dateFields by decide) hmem

/-- Witness for `c9_datetime_truncated` at a concrete project and stamp. -/
theorem c9_datetime_truncated_witness :
    ∃ front q,
      load_projects (save_projects (add_project []
        [("id", Value.vStr "p1")] ⟨2026, 1, 5⟩ ⟨12, 30, 45, 123456⟩)) =
        Value.vList (front ++ [Value.vDict q]) ∧
      dictGet q "created_at" = some (Value.vDate ⟨2026, 1, 5⟩) ∧
      dictGet q "updated_at" = some (Value.vDate ⟨2026, 1, 5⟩) :=
  c9_datetime_truncated [] [("id", Value.vStr "p1")] ⟨2026, 1, 5⟩
    ⟨12, 30, 45, 123456⟩ (by decide) (by decide)


/-- C6, counterexample: with 2 of 3 subtasks completed, the code stores
`int((2/3)*100) = 66`, while `round(100 * 2 / 3) = 67`: the invariant as
claimed (with `round`) fails after `recalculate_completion`. -/
theorem c6_round_counterexample :
    recalculate_completion
        [[("id", Value.vStr "p1"),
          ("subtasks", Value.vList
            [Value.vDict [("completed", Value.vBool true)],
             Value.vDict [("completed", Value.vBool true)],
             Value.vDict [("completed", Value.vBool false)]]),
          ("completion_percentage", Value.vInt 0)]] "p1" =
      [[("id", Value.vStr "p1"),
        ("subtasks", Value.vList
          [Value.vDict [("completed", Value.vBool true)],
           Value.vDict [("completed", Value.vBool true)],
           Value.vDict [("completed", Value.vBool false)]]),
        ("completion_percentage", Value.vInt 66)]] ∧
    (66 : ℤ) ≠ round ((100 * 2 : ℚ) / 3) := by
  constructor
  · decide
  · have h : round ((100 * 2 : ℚ) / 3) = 67 := by
      rw [round_eq]
      norm_num
    rw [h]
    decide

/-- C6 (amended): after `recalculate_completion`, and after `delete_subtask`
that leaves a non-empty subtask list, the matched project's
`completion_percentage` equals `completionPct completed total` — the exact
value of `int((completed/total)*100)` in double-precision arithmetic (the
truncated float percentage, which is the floor of the exact ratio except at
float edge cases, and differs from `round`). -/
theorem c6_completion_recomputed :
    (∀ (A B : List PyDict) (p : PyDict) (pid : String) (subs : List Value),
      (∀ q ∈ A, idMatches q pid = false) → idMatches p pid = true →
      dictGetD p "subtasks" (.vList []) = .vList subs → subs ≠ [] →
      recalculate_completion (A ++ p :: B) pid =
        A ++ dictSet p "completion_percentage"
          (.vInt (completionPct (countCompleted subs) subs.length)) :: B) ∧
    (∀ (A B : List PyDict) (p : PyDict) (pid : String) (subs : List Value)
      (i : Int),
      (∀ q ∈ A, idMatches q pid = false) → idMatches p pid = true →
      dictGetD p "subtasks" (.vList []) = .vList subs →
      0 ≤ i → i < (subs.length : Int) → subs.eraseIdx i.toNat ≠ [] →
      delete_subtask (A ++ p :: B) pid i =
        A ++ dictSet (dictSet p "subtasks" (.vList (subs.eraseIdx i.toNat)))
          "completion_percentage"
          (.vInt (completionPct (countCompleted (subs.eraseIdx i.toNat))
            (subs.eraseIdx i.toNat).length)) :: B) := by
  constructor
  · intro A B p pid subs hA hp hsubs hne
    induction A with
    | nil =>
      have hemp : subs.isEmpty = false := by
        cases subs
        · exact absurd rfl hne
        · rfl
      simp [recalculate_completion, hp, hsubs, hemp]
    | cons q tA ih =>
      have hq : idMatches q pid = false := hA q (by simp)
      simp only [List.cons_append, recalculate_completion, hq,
        Bool.false_eq_true, if_false, List.append_eq]
      rw [ih (fun r hr => hA r (by simp [hr]))]
  · intro A B p pid subs i hA hp hsubs h0 hlen hne
    induction A with
    | nil =>
      have hemp : (subs.eraseIdx i.toNat).isEmpty = false := by
        cases hcc : subs.eraseIdx i.toNat
        · exact absurd hcc hne
        · rfl
      simp [delete_subtask, hp, hsubs, hemp, h0, hlen]
    | cons q tA ih =>
      have hq : idMatches q pid = false := hA q (by simp)
      simp only [List.cons_append, delete_subtask, hq,
        Bool.false_eq_true, if_false, List.append_eq]
      rw [ih (fun r hr => hA r (by simp [hr]))]


/-- Witness for `c6_completion_recomputed`: recomputation on a project with 2
of 3 subtasks completed stores 66; deleting the incomplete third subtask
leaves 2 of 2 and stores 100. -/
theorem c6_completion_recomputed_witness :
    recalculate_completion
        [[("id", Value.vStr "p1"),
          ("subtasks", Value.vList
            [Value.vDict [("completed", Value.vBool true)],
             Value.vDict [("completed", Value.vBool true)],
             Value.vDict [("completed", Value.vBool false)]]),
          ("completion_percentage", Value.vInt 0)]] "p1" =
      [[("id", Value.vStr "p1"),
        ("subtasks", Value.vList
          [Value.vDict [("completed", Value.vBool true)],
           Value.vDict [("completed", Value.vBool true)],
           Value.vDict [("completed", Value.vBool false)]]),
        ("completion_percentage", Value.vInt 66)]] ∧
    delete_subtask
        [[("id", Value.vStr "p1"),
          ("subtasks", Value.vList
            [Value.vDict [("completed", Value.vBool true)],
             Value.vDict [("completed", Value.vBool true)],
             Value.vDict [("completed", Value.vBool false)]]),
          ("completion_percentage", Value.vInt 0)]] "p1" 2 =
      [[("id", Value.vStr "p1"),
        ("subtasks", Value.vList
          [Value.vDict [("completed", Value.vBool true)],
           Value.vDict [("completed", Value.vBool true)]]),
        ("completion_percentage", Value.vInt 100)]] := by
  constructor
  · have h1 := c6_completion_recomputed.1 [] []
      [("id", Value.vStr "p1"),
       ("subtasks", Value.vList
         [Value.vDict [("completed", Value.vBool true)],
          Value.vDict [("completed", Value.vBool true)],
          Value.vDict [("completed", Value.vBool false)]]),
       ("completion_percentage", Value.vInt 0)] "p1"
      [Value.vDict [("completed", Value.vBool true)],
       Value.vDict [("completed", Value.vBool true)],
       Value.vDict [("completed", Value.vBool false)]]
      (by simp) (by decide) (by decide) (by decide)
    exact h1.trans (by decide)
  · have h2 := c6_completion_recomputed.2 [] []
      [("id", Value.vStr "p1"),
       ("subtasks", Value.vList
         [Value.vDict [("completed", Value.vBool true)],
          Value.vDict [("completed", Value.vBool true)],
          Value.vDict [("completed", Value.vBool false)]]),
       ("completion_percentage", Value.vInt 0)] "p1"
      [Value.vDict [("completed", Value.vBool true)],
       Value.vDict [("completed", Value.vBool true)],
       Value.vDict [("completed", Value.vBool false)]] 2
      (by simp) (by decide) (by decide) (by decide) (by decide) (by decide)
    exact h2.trans (by decide)

theorem setGetD_cons_perm {α : Type} (dflt : α) :
    ∀ (t : List α) (k : Nat) (a : α), k < t.length →
      List.Perm (t.getD k dflt :: t.set k a) (a :: t)
  | x :: t, 0, a, _ => by
    simp only [List.getD_cons_zero, List.set_cons_zero]
    exact List.Perm.swap a x t
  | x :: t, k + 1, a, h => by
    simp only [List.getD_cons_succ, List.set_cons_succ]
    exact (List.Perm.swap x _ _).trans
      (((setGetD_cons_perm dflt t k a (by simpa using h)).cons x).trans
        (List.Perm.swap a x t))

theorem set_set_swap_perm {α : Type} (dflt : α) :
    ∀ (l : List α) (i j : Nat), i < l.length → j < l.length →
      List.Perm ((l.set i (l.getD j dflt)).set j (l.getD i dflt)) l
  | x :: t, 0, 0, _, _ => by
    simp only [List.getD_cons_zero, List.set_cons_zero]
    exact List.Perm.refl _
  | x :: t, 0, j + 1, hi, hj => by
    simp only [List.getD_cons_zero, List.getD_cons_succ, List.set_cons_zero,
      List.set_cons_succ]
    exact setGetD_cons_perm dflt t j x (by simpa using hj)
  | x :: t, i + 1, 0, hi, hj => by
    simp only [List.getD_cons_zero, List.getD_cons_succ, List.set_cons_zero,
      List.set_cons_succ]
    exact setGetD_cons_perm dflt t i x (by simpa using hi)
  | x :: t, i + 1, j + 1, hi, hj => by
    simp only [List.getD_cons_succ, List.set_cons_succ]
    exact (set_set_swap_perm dflt t i j (by simpa using hi)
      (by simpa using hj)).cons x

theorem insertIdx_cons_perm {α : Type} (a : α) :
    ∀ (l : List α) (n : Nat), n ≤ l.length →
      List.Perm (l.insertIdx n a) (a :: l)
  | l, 0, _ => by
    rw [List.insertIdx_zero]
  | [], n + 1, h => by simp at h
  | x :: t, n + 1, h => by
    rw [List.insertIdx_succ_cons]
    exact ((insertIdx_cons_perm a t n (by simpa using h)).cons x).trans
      (List.Perm.swap a x t)

theorem eraseIdx_cons_perm {α : Type} (dflt : α) :
    ∀ (l : List α) (i : Nat), i < l.length →
      List.Perm l (l.getD i dflt :: l.eraseIdx i)
  | x :: t, 0, _ => by
    simp only [List.getD_cons_zero, List.eraseIdx_cons_zero]
    exact List.Perm.refl _
  | x :: t, i + 1, h => by
    simp only [List.getD_cons_succ, List.eraseIdx_cons_succ]
    exact ((eraseIdx_cons_perm dflt t i (by simpa using h)).cons x).trans
      (List.Perm.swap _ x _)


theorem move_subtask_to_position_out (A B : List PyDict) (p : PyDict)
    (pid : String) (subs : List Value) (f t : Int)
    (hA : ∀ q ∈ A, idMatches q pid = false) (hp : idMatches p pid = true)
    (hsubs : dictGetD p "subtasks" (.vList []) = .vList subs)
    (hout : ¬((0 ≤ f ∧ f < (subs.length : Int)) ∧
      (0 ≤ t ∧ t < (subs.length : Int)))) :
    move_subtask_to_position (A ++ p :: B) pid f t = A ++ p :: B := by
  induction A with
  | nil => simp [move_subtask_to_position, hp, hsubs, hout]
  | cons q tA ih =>
    have hq : idMatches q pid = false := hA q (by simp)
    simp only [List.cons_append, move_subtask_to_position, hq,
      Bool.false_eq_true, if_false, List.append_eq]
    rw [ih (fun r hr => hA r (by simp [hr]))]

theorem move_subtask_out (A B : List PyDict) (p : PyDict)
    (pid : String) (subs : List Value) (f t : Int)
    (hA : ∀ q ∈ A, idMatches q pid = false) (hp : idMatches p pid = true)
    (hsubs : dictGetD p "subtasks" (.vList []) = .vList subs)
    (hout : ¬((0 ≤ f ∧ f < (subs.length : Int)) ∧
      (0 ≤ t ∧ t < (subs.length : Int)))) :
    move_subtask (A ++ p :: B) pid f t = A ++ p :: B := by
  induction A with
  | nil => simp [move_subtask, hp, hsubs, hout]
  | cons q tA ih =>
    have hq : idMatches q pid = false := hA q (by simp)
    simp only [List.cons_append, move_subtask, hq,
      Bool.false_eq_true, if_false, List.append_eq]
    rw [ih (fun r hr => hA r (by simp [hr]))]

theorem move_subtask_to_position_in (A B : List PyDict) (p : PyDict)
    (pid : String) (subs : List Value) (f t : Int)
    (hA : ∀ q ∈ A, idMatches q pid = false) (hp : idMatches p pid = true)
    (hsubs : dictGetD p "subtasks" (.vList []) = .vList subs)
    (hin : (0 ≤ f ∧ f < (subs.length : Int)) ∧
      (0 ≤ t ∧ t < (subs.length : Int))) :
    move_subtask_to_position (A ++ p :: B) pid f t =
      A ++ dictSet p "subtasks" (.vList ((subs.eraseIdx f.toNat).insertIdx
        t.toNat (subs.getD f.toNat .vNull))) :: B := by
  induction A with
  | nil => simp [move_subtask_to_position, hp, hsubs, hin]
  | cons q tA ih =>
    have hq : idMatches q pid = false := hA q (by simp)
    simp only [List.cons_append, move_subtask_to_position, hq,
      Bool.false_eq_true, if_false, List.append_eq]
    rw [ih (fun r hr => hA r (by simp [hr]))]

theorem move_subtask_in (A B : List PyDict) (p : PyDict)
    (pid : String) (subs : List Value) (f t : Int)
    (hA : ∀ q ∈ A, idMatches q pid = false) (hp : idMatches p pid = true)
    (hsubs : dictGetD p "subtasks" (.vList []) = .vList subs)
    (hin : (0 ≤ f ∧ f < (subs.length : Int)) ∧
      (0 ≤ t ∧ t < (subs.length : Int))) :
    move_subtask (A ++ p :: B) pid f t =
      A ++ dictSet p "subtasks" (.vList ((subs.set f.toNat
        (subs.getD t.toNat .vNull)).set t.toNat
        (subs.getD f.toNat .vNull))) :: B := by
  induction A with
  | nil => simp [move_subtask, hp, hsubs, hin]
  | cons q tA ih =>
    have hq : idMatches q pid = false := hA q (by simp)
    simp only [List.cons_append, move_subtask, hq,
      Bool.false_eq_true, if_false, List.append_eq]
    rw [ih (fun r hr => hA r (by simp [hr]))]


/-- C10: in both subtask-move operations, out-of-range indices (negative or
not less than the subtask count) leave the state entirely unchanged and raise
no error; in-range indices reorder exactly as pop/insert (respectively
simultaneous swap), producing a permutation of the original subtask list — no
subtask record is added, dropped, or modified. -/
theorem c10_move_guards :
    (∀ (A B : List PyDict) (p : PyDict) (pid : String) (subs : List Value)
      (f t : Int),
      (∀ q ∈ A, idMatches q pid = false) → idMatches p pid = true →
      dictGetD p "subtasks" (.vList []) = .vList subs →
      (f < 0 ∨ (subs.length : Int) ≤ f ∨ t < 0 ∨ (subs.length : Int) ≤ t) →
      move_subtask_to_position (A ++ p :: B) pid f t = A ++ p :: B ∧
        move_subtask (A ++ p :: B) pid f t = A ++ p :: B) ∧
    (∀ (A B : List PyDict) (p : PyDict) (pid : String) (subs : List Value)
      (f t : Int),
      (∀ q ∈ A, idMatches q pid = false) → idMatches p pid = true →
      dictGetD p "subtasks" (.vList []) = .vList subs →
      0 ≤ f → f < (subs.length : Int) → 0 ≤ t → t < (subs.length : Int) →
      (move_subtask_to_position (A ++ p :: B) pid f t =
          A ++ dictSet p "subtasks" (.vList ((subs.eraseIdx f.toNat).insertIdx
            t.toNat (subs.getD f.toNat .vNull))) :: B ∧
        ((subs.eraseIdx f.toNat).insertIdx t.toNat
          (subs.getD f.toNat .vNull)).Perm subs) ∧
      (move_subtask (A ++ p :: B) pid f t =
          A ++ dictSet p "subtasks" (.vList ((subs.set f.toNat
            (subs.getD t.toNat .vNull)).set t.toNat
            (subs.getD f.toNat .vNull))) :: B ∧
        ((subs.set f.toNat (subs.getD t.toNat .vNull)).set t.toNat
          (subs.getD f.toNat .vNull)).Perm subs)) := by
  constructor
  · intro A B p pid subs f t hA hp hsubs hout
    have hng : ¬((0 ≤ f ∧ f < (subs.length : Int)) ∧
        (0 ≤ t ∧ t < (subs.length : Int))) := by
      rintro ⟨⟨hf0, hf1⟩, ht0, ht1⟩
      omega
    exact ⟨move_subtask_to_position_out A B p pid subs f t hA hp hsubs hng,
      move_subtask_out A B p pid subs f t hA hp hsubs hng⟩
  · intro A B p pid subs f t hA hp hsubs hf0 hf1 ht0 ht1
    have hf : f.toNat < subs.length := by omega
    have ht : t.toNat < subs.length := by omega
    have hl2 : (subs.eraseIdx f.toNat).length = subs.length - 1 := by
      rw [List.length_eraseIdx]
      simp [hf]
    have hle : t.toNat ≤ (subs.eraseIdx f.toNat).length := by omega
    refine ⟨⟨move_subtask_to_position_in A B p pid subs f t hA hp hsubs
        ⟨⟨hf0, hf1⟩, ht0, ht1⟩, ?_⟩,
      move_subtask_in A B p pid subs f t hA hp hsubs
        ⟨⟨hf0, hf1⟩, ht0, ht1⟩, ?_⟩
    · exact (insertIdx_cons_perm _ _ _ hle).trans
        (eraseIdx_cons_perm Value.vNull subs f.toNat hf).symm
    · exact set_set_swap_perm Value.vNull subs f.toNat t.toNat hf ht


/-- Witness for `c10_move_guards`: on a project with subtasks s0, s1, s2, an
out-of-range index (5, or -1) leaves the state unchanged; moving index 0 to
position 2 yields s1, s2, s0; swapping 0 and 2 yields s2, s1, s0. -/
theorem c10_move_guards_witness :
    move_subtask_to_position
        [[("id", Value.vStr "p1"),
          ("subtasks", Value.vList
            [Value.vDict [("id", Value.vStr "s0")],
             Value.vDict [("id", Value.vStr "s1")],
             Value.vDict [("id", Value.vStr "s2")]])]] "p1" 5 0 =
      [[("id", Value.vStr "p1"),
        ("subtasks", Value.vList
          [Value.vDict [("id", Value.vStr "s0")],
           Value.vDict [("id", Value.vStr "s1")],
           Value.vDict [("id", Value.vStr "s2")]])]] ∧
    move_subtask
        [[("id", Value.vStr "p1"),
          ("subtasks", Value.vList
            [Value.vDict [("id", Value.vStr "s0")],
             Value.vDict [("id", Value.vStr "s1")],
             Value.vDict [("id", Value.vStr "s2")]])]] "p1" (-1) 0 =
      [[("id", Value.vStr "p1"),
        ("subtasks", Value.vList
          [Value.vDict [("id", Value.vStr "s0")],
           Value.vDict [("id", Value.vStr "s1")],
           Value.vDict [("id", Value.vStr "s2")]])]] ∧
    move_subtask_to_position
        [[("id", Value.vStr "p1"),
          ("subtasks", Value.vList
            [Value.vDict [("id", Value.vStr "s0")],
             Value.vDict [("id", Value.vStr "s1")],
             Value.vDict [("id", Value.vStr "s2")]])]] "p1" 0 2 =
      [[("id", Value.vStr "p1"),
        ("subtasks", Value.vList
          [Value.vDict [("id", Value.vStr "s1")],
           Value.vDict [("id", Value.vStr "s2")],
           Value.vDict [("id", Value.vStr "s0")]])]] ∧
    move_subtask
        [[("id", Value.vStr "p1"),
          ("subtasks", Value.vList
            [Value.vDict [("id", Value.vStr "s0")],
             Value.vDict [("id", Value.vStr "s1")],
             Value.vDict [("id", Value.vStr "s2")]])]] "p1" 0 2 =
      [[("id", Value.vStr "p1"),
        ("subtasks", Value.vList
          [Value.vDict [("id", Value.vStr "s2")],
           Value.vDict [("id", Value.vStr "s1")],
           Value.vDict [("id", Value.vStr "s0")]])]] := by
  refine ⟨?_, ?_, ?_, ?_⟩
  · have h := (c10_move_guards.1 [] []
      [("id", Value.vStr "p1"),
       ("subtasks", Value.vList
         [Value.vDict [("id", Value.vStr "s0")],
          Value.vDict [("id", Value.vStr "s1")],
          Value.vDict [("id", Value.vStr "s2")]])] "p1"
      [Value.vDict [("id", Value.vStr "s0")],
       Value.vDict [("id", Value.vStr "s1")],
       Value.vDict [("id", Value.vStr "s2")]] 5 0
      (by simp) (by decide) (by decide)
      (Or.inr (Or.inl (by decide)))).1
    exact h.trans (by decide)
  · have h := (c10_move_guards.1 [] []
      [("id", Value.vStr "p1"),
       ("subtasks", Value.vList
         [Value.vDict [("id", Value.vStr "s0")],
          Value.vDict [("id", Value.vStr "s1")],
          Value.vDict [("id", Value.vStr "s2")]])] "p1"
      [Value.vDict [("id", Value.vStr "s0")],
       Value.vDict [("id", Value.vStr "s1")],
       Value.vDict [("id", Value.vStr "s2")]] (-1) 0
      (by simp) (by decide) (by decide) (Or.inl (by decide))).2
    exact h.trans (by decide)
  · have h := ((c10_move_guards.2 [] []
      [("id", Value.vStr "p1"),
       ("subtasks", Value.vList
         [Value.vDict [("id", Value.vStr "s0")],
          Value.vDict [("id", Value.vStr "s1")],
          Value.vDict [("id", Value.vStr "s2")]])] "p1"
      [Value.vDict [("id", Value.vStr "s0")],
       Value.vDict [("id", Value.vStr "s1")],
       Value.vDict [("id", Value.vStr "s2")]] 0 2
      (by simp) (by decide) (by decide)
      (by decide) (by decide) (by decide) (by decide)).1).1
    exact h.trans (by decide)
  · have h := ((c10_move_guards.2 [] []
      [("id", Value.vStr "p1"),
       ("subtasks", Value.vList
         [Value.vDict [("id", Value.vStr "s0")],
          Value.vDict [("id", Value.vStr "s1")],
          Value.vDict [("id", Value.vStr "s2")]])] "p1"
      [Value.vDict [("id", Value.vStr "s0")],
       Value.vDict [("id", Value.vStr "s1")],
       Value.vDict [("id", Value.vStr "s2")]] 0 2
      (by simp) (by decide) (by decide)
      (by decide) (by decide) (by decide) (by decide)).2).1
    exact h.trans (by decide)

end GoalTracker
